import Mathlib

/-!
Verification of the enum4linux-ng enumeration core.

A shallow embedding, in Lean 4, of the parts of `enum4linux-ng.py` that the
specification talks about: the Python dictionaries that hold enumeration
results (modelled as insertion-ordered association lists), the `Target`
workgroup-resolution logic, the user-list merge, the RID-cycling fold, the
session gate, the SID-discovery loop, the LSA/LDAP classifiers, the policy
duration decoder and the share brute-force runner.  Network probes are
modelled as inputs (their already-captured textual or parsed responses);
console printing is outside the model.  Theorems about each embedded
operation follow the definitions.
-/

set_option maxHeartbeats 1000000

namespace Enum4linuxNg

/-! ## Association lists as Python dictionaries

Python `dict`s preserve insertion order; writing to an existing key keeps its
position, writing to a fresh key appends.  `alookup`/`ainsert` model indexing
and item assignment, `aupdate` models `dict.update` (and hence the
`{**a, **b}` construction, which is `dict(a)` followed by `.update(b)`). -/

def alookup {α : Type} (k : String) : List (String × α) → Option α
  | [] => none
  | (k', v) :: rest => if k = k' then some v else alookup k rest

def ainsert {α : Type} (k : String) (v : α) : List (String × α) → List (String × α)
  | [] => [(k, v)]
  | (k', v') :: rest => if k = k' then (k, v) :: rest else (k', v') :: ainsert k v rest

def aupdate {α : Type} (a b : List (String × α)) : List (String × α) :=
  b.foldl (fun acc kv => ainsert kv.1 kv.2 acc) a

def aerase {α : Type} (k : String) : List (String × α) → List (String × α)
  | [] => []
  | (k', v') :: rest => if k' = k then aerase k rest else (k', v') :: aerase k rest

/-! ## Python string helpers -/

/-- Truthiness of a Python string: non-empty strings are truthy. -/
def py_truthy_str (s : String) : Bool := !(s == "")

/-- Truthiness of a value that is either a Python bool or `None`. -/
def py_truthy_opt_bool : Option Bool → Bool
  | some b => b
  | none => false

/-- Python `sub in s` (substring containment), on char lists. -/
def list_contains_sub (sub : List Char) : List Char → Bool
  | [] => sub.isEmpty
  | c :: cs => sub.isPrefixOf (c :: cs) || list_contains_sub sub cs

/-- Python `sub in s` (substring containment) on strings. -/
def str_contains (s sub : String) : Bool := list_contains_sub sub.toList s.toList

/-- Python `s.split('.')`: split on the dot character; the split of `""` is `[""]`. -/
def py_split_dot_aux : List Char → List Char → List String
  | [], acc => [String.mk acc.reverse]
  | c :: cs, acc =>
    if c = '.' then String.mk acc.reverse :: py_split_dot_aux cs []
    else py_split_dot_aux cs (c :: acc)

def py_split_dot (s : String) : List String :=
  py_split_dot_aux s.toList []

/-- Python `s.rstrip()`: drop trailing whitespace. -/
def py_rstrip (s : String) : String :=
  String.mk ((s.toList.reverse.dropWhile Char.isWhitespace).reverse)

/-! ## Target (class `Target`, `enum4linux-ng.py` lines 201-231)

Only the fields the workgroup-resolution logic reads are modelled. -/

structure Target where
  host : String
  workgroup : String
  workgroup_from_long_domain : Bool

/-- Method `Target.update_workgroup` (lines 216-228): once the workgroup has been
set from a long domain name, the method returns immediately; a long-domain
assignment stores only the part before the first dot and latches the
`workgroup_from_long_domain` flag; otherwise the workgroup is overwritten. -/
def update_workgroup (t : Target) (workgroup : String) (long_domain : Bool) : Target :=
  if t.workgroup_from_long_domain then t
  else if long_domain then
    { t with
      workgroup := (py_split_dot workgroup).headD "",
      workgroup_from_long_domain := true }
  else { t with workgroup := workgroup }

/-- A sequence of later `update_workgroup` calls (name, long_domain flag). -/
def apply_workgroup_updates (t : Target) (calls : List (String × Bool)) : Target :=
  calls.foldl (fun acc c => update_workgroup acc c.1 c.2) t

/-- Per `main` lines 2180-2181: the LDAP long domain is pushed into the Target
only when no workgroup is known yet and the result is truthy. -/
def main_ldap_workgroup_step (t : Target) (long_domain : Option String) : Target :=
  if !(py_truthy_str t.workgroup) && py_truthy_opt_bool (long_domain.map py_truthy_str) then
    update_workgroup t (long_domain.getD "") true
  else t

/-! ## Users enumeration via RPC (class `EnumUsersRpc`, lines 869-1048)

`enum_from_querydispinfo` parses each line into a four-field record,
`enum_from_enumdomusers` into a one-field record; both are keyed by the
decimal RID string.  The run method merges the two parsed dictionaries
(lines 902-908). -/

structure UserEntry where
  username : String
  name : Option String := none
  acb : Option String := none
  description : Option String := none
deriving DecidableEq

/-- Lines 902-908 of `EnumUsersRpc.run`:
`users = {**users_edu_output, **users_qdi_output}` when both listing calls
succeeded, otherwise whichever succeeded (or `None` when both failed). -/
def merge_users (users_qdi_output users_edu_output : Option (List (String × UserEntry))) :
    Option (List (String × UserEntry)) :=
  match users_qdi_output, users_edu_output with
  | some qdi, some edu => some (aupdate edu qdi)
  | qdi, none => qdi
  | none, some edu => some edu

/-- Parsed `querydispinfo` result used as a concrete test vector:
RID 1001 with the full four-field record. -/
def qdi_example : List (String × UserEntry) :=
  [("1001", { username := "alice", name := some "", acb := some "0x00000010",
              description := some "" })]

/-- Parsed `enumdomusers` result used as a concrete test vector:
the same RID 1001, username-only record. -/
def edu_example : List (String × UserEntry) :=
  [("1001", { username := "bob" })]

/-! ## Policy decoder (class `EnumPolicy`, lines 1577-1749)

`policy_to_human` receives the 32-bit pair of a SAMR relative-time field:
`low` is the unsigned `LowPart`, `high` the signed `HighPart` (impacket
delivers the signed reading of the 32-bit pattern, so the sentinel pattern
`0x80000000` arrives as `-0x80000000`, which is what the source's
`hex(high) == "-0x80000000"` test recognises).  The float multiplication by
`1e-7` followed by `datetime.utcfromtimestamp` is modelled as flooring
integer division of the 100ns tick count by `10^7`;
`datetime.utcfromtimestamp` accepts at most second 253402300799
(9999-12-31 23:59:59), beyond which the source's `except` branch returns
"invalid time". -/

/-- Signed reading of a 32-bit pattern (what impacket's LONG fields hold). -/
def to_signed_32 (n : Nat) : Int :=
  if n < 2 ^ 31 then (n : Int) else (n : Int) - 2 ^ 32

/-- Lines 1729-1749: seconds → days/hours/minutes with pluralization, from a
100ns tick count. -/
def render_ticks (ticks : Nat) : String :=
  let secs := ticks / 10000000
  if 253402300800 ≤ secs then "invalid time"
  else
    let minutes := secs / 60 % 60
    let hours := secs / 3600 % 24
    let days := secs / 86400
    let t := ""
    let t := if 1 < days then t ++ toString days ++ " days "
             else if days = 1 then t ++ toString days ++ " day " else t
    let t := if 1 < hours then t ++ toString hours ++ " hours "
             else if hours = 1 then t ++ toString hours ++ " hour " else t
    let t := if 1 < minutes then t ++ toString minutes ++ " minutes"
             else if minutes = 1 then t ++ toString minutes ++ " minute" else t
    t

/-- Method `EnumPolicy.policy_to_human` (lines 1705-1749). -/
def policy_to_human (low : Nat) (high : Int) (lockout : Bool) : String :=
  if low = 0 ∧ high = -(2 ^ 31) then "not set"
  else if low = 0 ∧ high = 0 then "none"
  else if lockout = false then
    let ticks :=
      if low ≠ 0 then low + (high + 1).natAbs * 16 ^ 8
      else low + high.natAbs * 16 ^ 8
    render_ticks ticks
  else render_ticks high.natAbs

/-! ## RID cycling: SID discovery (method `RidCycling.enum_sids`, lines 1336-1371)

The per-username loop (lines 1344-1356) runs `lookupnames` for each
well-known account name and is supposed to extract the first match of each
of the three SID regexes `(S-1-5-21-[\d-]+)-\d+`, `(S-1-5-[\d-]+)-\d+` and
`(S-1-22-[\d-]+)-\d+` from the captured output.  `search_sid` implements
`re.search` for exactly this pattern shape (literal authority prefix, then a
greedy run of digits/dashes that must still be followed by `-` and at least
one digit; group 1 is everything up to that last such dash). -/

/-- Index of the last dash inside a digits/dashes run that is followed by a
digit and leaves a non-empty group before it (the greedy backtracking point
of `[\d-]+` before `-\d+`). -/
def sid_last_dash (r : List Char) : Option Nat :=
  ((List.range r.length).filter
    (fun j => decide (1 ≤ j) && (r[j]? == some '-') && ((r[j+1]?).getD 'x').isDigit)).getLast?

/-- Match the SID pattern anchored at the start of `s`; returns group 1. -/
def match_sid_here (pfx s : List Char) : Option (List Char) :=
  if pfx.isPrefixOf s then
    let rest := s.drop pfx.length
    let r := rest.takeWhile (fun c => c.isDigit || c == '-')
    match sid_last_dash r with
    | some j => some (pfx ++ r.take j)
    | none => none
  else none

/-- Model of `re.search` for the SID pattern: leftmost match, returning group 1. -/
def search_sid (pfx : List Char) : List Char → Option (List Char)
  | [] => none
  | c :: cs =>
    match match_sid_here pfx (c :: cs) with
    | some g => some g
    | none => search_sid pfx cs

/-- The three authority-prefix patterns of `sid_patterns_list` (line 1341). -/
def sid_pattern_list : List (List Char) :=
  ["S-1-5-21-".toList, "S-1-5-".toList, "S-1-22-".toList]

/-- The body of the per-username loop (lines 1345-1356): the guard is the
source's `if "NT_STATUS_ACCESS_DENIED" or "NT_STATUS_NONE_MAPPED" in
sid_string: continue`, in which the left operand of `or` is the truthiness
of the string literal itself. -/
def enum_sids_loop_body (sids : List String) (sid_string : String) : List String :=
  if py_truthy_str "NT_STATUS_ACCESS_DENIED" || str_contains sid_string "NT_STATUS_NONE_MAPPED" then
    sids
  else
    sid_pattern_list.foldl
      (fun acc pfx =>
        match search_sid pfx sid_string.toList with
        | some g =>
          let result := String.mk g
          if acc.contains result then acc else acc ++ [result]
        | none => acc)
      sids

/-- The whole per-username loop (lines 1344-1356) over the captured
`lookupnames` outputs, starting from the empty `sids` list (line 1340). -/
def enum_sids_user_loop (lookup_outputs : List String) : List String :=
  lookup_outputs.foldl enum_sids_loop_body []

/-! ## Domain membership via lsaquery
(method `EnumLsaqueryDomainInfo.check_is_part_of_workgroup_or_domain`,
lines 759-768)

The second branch's regex `Domain Sid: S-\d+-\d+-\d+-\d+-\d+-\d+` is a
deterministic shape: literal prefix, then six digit groups separated by
dashes. -/

/-- Consume `\d+` (at least one digit), returning the remainder. -/
def consume_digits (s : List Char) : Option (List Char) :=
  let ds := s.takeWhile Char.isDigit
  if ds.isEmpty then none else some (s.drop ds.length)

/-- Consume `-\d+`, returning the remainder. -/
def consume_dash_digits (s : List Char) : Option (List Char) :=
  match s with
  | '-' :: rest => consume_digits rest
  | _ => none

/-- Match `Domain Sid: S-\d+-\d+-\d+-\d+-\d+-\d+` anchored at `s`. -/
def match_domain_sid_here (s : List Char) : Bool :=
  if ("Domain Sid: S-".toList).isPrefixOf s then
    let rest := s.drop ("Domain Sid: S-".toList.length)
    ((((((consume_digits rest).bind consume_dash_digits).bind consume_dash_digits).bind
        consume_dash_digits).bind consume_dash_digits).bind consume_dash_digits).isSome
  else false

/-- Model of `re.search` for the domain-SID pattern (match anywhere). -/
def re_search_domain_sid : List Char → Bool
  | [] => false
  | c :: cs => match_domain_sid_here (c :: cs) || re_search_domain_sid cs

/-- Lines 759-768: the first branch tests the truthiness of the string
literal `"Domain Sid: S-0-0"` or-ed with the `(NULL SID)` containment check;
retval is `"workgroup"`, `"domain"`, or `False` (here `none`). -/
def check_is_part_of_workgroup_or_domain (lsaquery_result : String) : Option String × String :=
  if py_truthy_str "Domain Sid: S-0-0" || str_contains lsaquery_result "Domain Sid: (NULL SID)" then
    (some "workgroup", "Host is part of a workgroup (not a domain)")
  else if re_search_domain_sid lsaquery_result.toList then
    (some "domain", "Host is part of a domain (not a workgroup)")
  else (none, "Could not determine if host is part of domain or part of a workgroup")

/-! ## LDAP parent/child DC classification
(methods `EnumLdapDomainInfo.check_parent_dc`, lines 649-659, and
`EnumLdapDomainInfo.run`, lines 580-589) -/

/-- Lines 649-659: `if "DC=DomainDnsZones" or "ForestDnsZones" in
namingcontexts_result` — the left operand of `or` is the truthiness of the
string literal; the right one is Python list membership. -/
def check_parent_dc (namingcontexts_result : List String) : Bool × String :=
  let parent := false
  let parent :=
    if py_truthy_str "DC=DomainDnsZones" || namingcontexts_result.contains "ForestDnsZones" then
      true
    else parent
  if parent then (true, "Appears to be root/parent DC")
  else (false, "Appears to be child DC")

/-- Lines 582-588 of `EnumLdapDomainInfo.run`: the `(is_parent_dc,
is_child_dc)` pair written to the output; both branches of the `if` assign
the same values. -/
def ldap_run_dc_flags (namingcontexts_result : List String) : Option Bool × Option Bool :=
  if (check_parent_dc namingcontexts_result).1 then (some true, some false)
  else (some true, some false)

/-! ## Python values and the output tree

The output dictionary (class `Output`) maps field names to heterogeneous
Python values; `PyVal` models the values that occur there. -/

inductive PyVal where
  | vNull : PyVal
  | vBool : Bool → PyVal
  | vStr : String → PyVal
  | vList : List PyVal → PyVal
  | vDict : List (String × PyVal) → PyVal

/-- Python truthiness of a modelled value. -/
def py_truthy_val : PyVal → Bool
  | .vNull => false
  | .vBool b => b
  | .vStr s => !(s == "")
  | .vList l => !l.isEmpty
  | .vDict d => !d.isEmpty

/-- Read a value as a dict (the source only does this on dicts). -/
def py_get_dict : PyVal → List (String × PyVal)
  | .vDict d => d
  | _ => []

/-! ## Error ledger and `process_error` (lines 2012-2029)

The `errors` entry maps an affected field name to a map from reporting
module name to the ordered list of error messages. -/

abbrev ErrLedger := List (String × List (String × List String))

/-- Function `process_error` restricted to the ledger it manipulates: for every
affected field, create the per-field map and the per-module list if missing,
then append the message (console printing is outside the model). -/
def process_error_ledger (msg : String) (affected_entries : List String)
    (module_name : String) (errors : ErrLedger) : ErrLedger :=
  affected_entries.foldl
    (fun errs entry =>
      let field_map := (alookup entry errs).getD []
      let msgs := (alookup module_name field_map).getD []
      ainsert entry (ainsert module_name (msgs ++ [msg]) field_map) errs)
    errors

/-- Render a ledger as the `PyVal` stored under the `errors` key. -/
def err_ledger_to_val (e : ErrLedger) : PyVal :=
  .vDict (e.map (fun kv =>
    (kv.1, PyVal.vDict (kv.2.map (fun mv => (mv.1, PyVal.vList (mv.2.map PyVal.vStr)))))))

/-! ## `Output.update` (lines 280-304)

Decomposed into the four steps of the source: plain dict update with the old
`errors` value restored, key-by-key merge of an incoming `errors` dict, and
`move_to_end("errors")`. -/

/-- The per-key deep merge of the incoming `errors` dict into the old one
(lines 294-301): for each incoming field key, `{**old[key], **new[key]}` if
the field already had errors, else the incoming value. -/
def errors_merge (old_errors new_errors : PyVal) : List (String × PyVal) :=
  (py_get_dict new_errors).foldl
    (fun acc kv =>
      match alookup kv.1 (py_get_dict old_errors) with
      | some old_val => ainsert kv.1 (PyVal.vDict (aupdate (py_get_dict old_val) (py_get_dict kv.2))) acc
      | none => ainsert kv.1 kv.2 acc)
    (py_get_dict old_errors)

/-- Lines 289-291: `dict.update(content)` followed by restoring the saved
`errors` value. -/
def output_update_core (out_dict content : List (String × PyVal)) : List (String × PyVal) :=
  ainsert "errors" ((alookup "errors" out_dict).getD (.vDict [])) (aupdate out_dict content)

/-- Lines 293-301: merge an incoming `errors` dict, if any. -/
def output_update_err (out_dict content : List (String × PyVal)) : List (String × PyVal) :=
  match alookup "errors" content with
  | some new_errors =>
    ainsert "errors"
      (.vDict (errors_merge ((alookup "errors" out_dict).getD (.vDict [])) new_errors))
      (output_update_core out_dict content)
  | none => output_update_core out_dict content

/-- Line 304: `move_to_end("errors")`. -/
def move_errors_to_end (t : List (String × PyVal)) : List (String × PyVal) :=
  match alookup "errors" t with
  | some v => aerase "errors" t ++ [("errors", v)]
  | none => t

/-- Method `Output.update` (lines 280-304), file writing omitted. -/
def output_update (out_dict content : List (String × PyVal)) : List (String × PyVal) :=
  move_errors_to_end (output_update_err out_dict content)

/-! ## Session checks (class `EnumSessions`, lines 409-548)

Each probe is modelled by its `Result`: retval (`True`/`False`/`None`) and
retmsg.  `None` models a connection error; only `True` is a success. -/

abbrev CheckResult := Option Bool × String

structure SessionsOutput where
  sessions_possible : Bool
  legacy_session : Bool
  null_session_possible : Bool
  user_session_possible : Bool
  random_user_session_possible : Bool
  errors : ErrLedger

/-- Line 420-424: the initial output dict of `EnumSessions.run`. -/
def sessions_initial : SessionsOutput :=
  ⟨false, false, false, false, false, []⟩

/-- Lines 427-443: the legacy-session port loop over ports 139 and 445 —
a `None` retval records an error and tries the next port, a non-`None`
retval is stored and breaks (the SambaConfig switch does not touch the
output flags). -/
def sessions_legacy_stage (o : SessionsOutput) (legacy1 legacy2 : CheckResult) : SessionsOutput :=
  match legacy1.1 with
  | some b => { o with legacy_session := b }
  | none =>
    let o1 := { o with errors := process_error_ledger legacy1.2 ["legacy_session"] "enum_sessions" o.errors }
    match legacy2.1 with
    | some b => { o1 with legacy_session := b }
    | none => { o1 with errors := process_error_ledger legacy2.2 ["legacy_session"] "enum_sessions" o1.errors }

/-- Lines 446-452: the null-session check. -/
def sessions_null_stage (o : SessionsOutput) (null_check : CheckResult) : SessionsOutput :=
  if py_truthy_opt_bool null_check.1 then { o with null_session_possible := true }
  else { o with errors := process_error_ledger null_check.2 ["null_session_possible"] "enum_sessions" o.errors }

/-- Lines 455-462: the user-session check, run only when a username was
supplied (`if self.creds.user`). -/
def sessions_user_stage (o : SessionsOutput) (has_user : Bool) (user_check : CheckResult) : SessionsOutput :=
  if has_user then
    if py_truthy_opt_bool user_check.1 then { o with user_session_possible := true }
    else { o with errors := process_error_ledger user_check.2 ["user_session_possible"] "enum_sessions" o.errors }
  else o

/-- Lines 465-472: the random-user session check. -/
def sessions_random_stage (o : SessionsOutput) (random_check : CheckResult) : SessionsOutput :=
  if py_truthy_opt_bool random_check.1 then { o with random_user_session_possible := true }
  else { o with errors := process_error_ledger random_check.2 ["random_user_session_possible"] "enum_sessions" o.errors }

/-- Lines 474-477: `sessions_possible` is set iff one of the three flags is
set, otherwise the failure is recorded in the ledger. -/
def sessions_finalize (o : SessionsOutput) : SessionsOutput :=
  if o.null_session_possible || o.user_session_possible || o.random_user_session_possible then
    { o with sessions_possible := true }
  else
    let errs := process_error_ledger
      "Sessions failed, neither null nor user sessions were possible."
      ["sessions_possible", "null_session_possible", "user_session_possible",
       "random_user_session_possible"] "enum_sessions" o.errors
    { o with errors := errs }

/-- Method `EnumSessions.run` (lines 414-479). -/
def enum_sessions_run (legacy1 legacy2 null_check : CheckResult) (has_user : Bool)
    (user_check random_check : CheckResult) : SessionsOutput :=
  sessions_finalize
    (sessions_random_stage
      (sessions_user_stage
        (sessions_null_stage
          (sessions_legacy_stage sessions_initial legacy1 legacy2)
          null_check)
        has_user user_check)
      random_check)

/-- The module output dict, in its insertion order; the `errors` key exists
only when `process_error` ran. -/
def sessions_to_tree (o : SessionsOutput) : List (String × PyVal) :=
  [("sessions_possible", .vBool o.sessions_possible),
   ("legacy_session", .vBool o.legacy_session),
   ("null_session_possible", .vBool o.null_session_possible),
   ("user_session_possible", .vBool o.user_session_possible),
   ("random_user_session_possible", .vBool o.random_user_session_possible)]
  ++ (if o.errors.isEmpty then [] else [("errors", err_ledger_to_val o.errors)])

inductive RunOutcome where
  | aborted : Nat → List (String × PyVal) → RunOutcome
  | completed : List (String × PyVal) → RunOutcome

/-- Per `main` lines 2192-2195 and the remainder of the pipeline: the sessions
result is merged into the output tree; if the tree's `sessions_possible`
value is falsy the run aborts with exit code 1 (`abort(1, ...)`), otherwise
every later module result is merged in turn. -/
def main_session_gate (tree0 : List (String × PyVal)) (o : SessionsOutput)
    (later : List (List (String × PyVal))) : RunOutcome :=
  let tree1 := output_update tree0 (sessions_to_tree o)
  if py_truthy_val ((alookup "sessions_possible" tree1).getD .vNull) then
    .completed (later.foldl output_update tree1)
  else .aborted 1 tree1

/-! ## RID cycling (class `RidCycling`, lines 1252-1334)

The generator `rid_cycle` yields one classified hit per successful
`lookupsids` response; `RidCycling.run` folds these hits into the seeded
output (`cycle_params.enumerated_input`, keys `users`, `groups`, `machines`,
`domain_sid`).  The hits (tag 1 = user, 2/4 = group, 9 = machine,
3 = domain SID) are the model's input: they are what the unchanged server
responses classify to. -/

inductive RcHit where
  | hitUser : String → String → RcHit
  | hitGroup : String → String → String → RcHit
  | hitMachine : String → String → RcHit
  | hitDomainSid : String → RcHit

/-- The seeded output dict of `RidCycling.run`: fields of
`cycle_params.enumerated_input` plus the error ledger. -/
structure RcOutput where
  users : PyVal
  groups : PyVal
  machines : PyVal
  domain_sid : PyVal
  errors : ErrLedger

structure RcCounts where
  users : Nat
  groups : Nat
  machines : Nat
deriving DecidableEq

/-- Detail oracle: the (retval, retmsg) of `get_details_from_rid` for a RID,
i.e. the parsed response of the detail probe (`vNull` retval = failure). -/
abbrev DetOracle := String → PyVal × String

/-- Line 1301: `output[top_level_key] is not None and rid in
output[top_level_key]`. -/
def rc_known (m : PyVal) (rid : String) : Bool :=
  match m with
  | .vDict d => (alookup rid d).isSome
  | _ => false

/-- Lines 1308-1310: create the per-type dict if it is `None`, then store the
entry under its RID. -/
def rc_insert_entry (m : PyVal) (rid : String) (entry : PyVal) : PyVal :=
  match m with
  | .vDict d => .vDict (ainsert rid entry d)
  | _ => .vDict [(rid, entry)]

/-- Item assignment on a dict value (`entry["details"] = ...`). -/
def py_dict_set (e : PyVal) (k : String) (v : PyVal) : PyVal :=
  match e with
  | .vDict d => .vDict (ainsert k v d)
  | x => x

/-- One iteration of the `for result in rid_cycler` loop (lines 1286-1327):
skip RIDs already present, otherwise insert the classified entry, count it,
and — with `detailed` and for users/groups only — fetch details, record a
ledger error on failure, and store `details` (even a `None` retval) into the
just-inserted entry. -/
def rc_step (detailed : Bool) (user_details group_details : DetOracle)
    (st : RcOutput × RcCounts) (hit : RcHit) : RcOutput × RcCounts :=
  match hit with
  | .hitDomainSid s => ({ st.1 with domain_sid := .vStr s }, st.2)
  | .hitUser rid username =>
    if rc_known st.1.users rid then st
    else
      let entry : PyVal := .vDict [("username", .vStr username)]
      let out := { st.1 with users := rc_insert_entry st.1.users rid entry }
      let cnt := { st.2 with users := st.2.users + 1 }
      if detailed then
        let det := user_details rid
        let out :=
          if py_truthy_val det.1 then out
          else { out with errors := process_error_ledger det.2 ["users"] "rid_cycling" out.errors }
        ({ out with users := rc_insert_entry out.users rid (py_dict_set entry "details" det.1) }, cnt)
      else (out, cnt)
  | .hitGroup rid groupname grouptype =>
    if rc_known st.1.groups rid then st
    else
      let entry : PyVal := .vDict [("groupname", .vStr groupname), ("type", .vStr grouptype)]
      let out := { st.1 with groups := rc_insert_entry st.1.groups rid entry }
      let cnt := { st.2 with groups := st.2.groups + 1 }
      if detailed then
        let det := group_details rid
        let out :=
          if py_truthy_val det.1 then out
          else { out with errors := process_error_ledger det.2 ["groups"] "rid_cycling" out.errors }
        ({ out with groups := rc_insert_entry out.groups rid (py_dict_set entry "details" det.1) }, cnt)
      else (out, cnt)
  | .hitMachine rid machine =>
    if rc_known st.1.machines rid then st
    else
      ({ st.1 with machines := rc_insert_entry st.1.machines rid (.vDict [("machine", .vStr machine)]) },
       { st.2 with machines := st.2.machines + 1 })

/-- Method `RidCycling.run` (lines 1279-1334): fold the classified hits over the
seeded output with fresh zero found-counts; if nothing new was found at all,
record the "Could not find any (new) ..." error (lines 1329-1330). -/
def rid_cycling_run (detailed : Bool) (user_details group_details : DetOracle)
    (seed : RcOutput) (hits : List RcHit) : RcOutput × RcCounts :=
  let r := hits.foldl (rc_step detailed user_details group_details) (seed, ⟨0, 0, 0⟩)
  if r.2.users = 0 ∧ r.2.groups = 0 ∧ r.2.machines = 0 then
    let errs := process_error_ledger
      "Could not find any (new) users, (new) groups or (new) machines"
      ["users", "groups", "machines"] "rid_cycling" r.1.errors
    ({ r.1 with errors := errs }, r.2)
  else r

/-- Lookup of a RID in a per-type map value. -/
def rc_lookup (m : PyVal) (rid : String) : Option PyVal :=
  match m with
  | .vDict d => alookup rid d
  | _ => none

/-- The keys of a per-type map value are duplicate-free. -/
def rc_nodup_keys (m : PyVal) : Prop :=
  match m with
  | .vDict d => (d.map Prod.fst).Nodup
  | _ => True

/-- A hit's RID is already present in the output's map of its type. -/
def hit_rid_known : RcHit → RcOutput → Prop
  | .hitUser rid _, out => (rc_lookup out.users rid).isSome = true
  | .hitGroup rid _ _, out => (rc_lookup out.groups rid).isSome = true
  | .hitMachine rid _, out => (rc_lookup out.machines rid).isSome = true
  | .hitDomainSid _, _ => True

/-- Detail oracle standing for a target that denies every detail probe. -/
def det_oracle_denied : DetOracle := fun _ => (.vNull, "Could not find details")

/-- A seeded RID-cycling input: one user known from the earlier
identity-enumeration stage. -/
def rc_seed_example : RcOutput :=
  { users := .vDict [("500", .vDict [("username", .vStr "Administrator")])],
    groups := .vNull,
    machines := .vNull,
    domain_sid := .vStr "S-1-5-21-1-2-3",
    errors := [] }

/-- Classified hits of one RID-cycling sweep: RID 500 resolves again (to the
seeded user), RID 1000 is a new user, RID 512 a new domain group. -/
def rc_hits_example : List RcHit :=
  [.hitUser "500" "Administrator", .hitUser "1000" "alice", .hitGroup "512" "Domain Admins" "domain"]

/-! ## Share brute-forcing (class `BruteForceShares`, lines 1532-1572)

`file_lines` is the wordlist contents, or `none` when opening/reading the
file raises.  In that case the source's `except` handler (line 1565)
evaluates `f"Failed to open {brute_params.shares_file}"`, but no name
`brute_params` is in scope (the attribute is `self.brute_params`), so the
handler itself raises `NameError`, which propagates out of `run` uncaught —
modelled as the `Except.error` result. -/

structure SharesOutput where
  shares : PyVal
  errors : ErrLedger

/-- Method `BruteForceShares.run` (lines 1538-1572).  `check_access` is the
(retval, retmsg) of `EnumShares.check_access` for a candidate share name. -/
def brute_force_shares_run (file_lines : Option (List String))
    (check_access : String → PyVal × String) (out0 : SharesOutput) :
    Except String (SharesOutput × Nat) :=
  match file_lines with
  | none => .error "NameError: name brute_params is not defined"
  | some lines =>
    let r := lines.foldl
      (fun st line =>
        let share := py_rstrip line
        if rc_known st.1.shares share then st
        else
          let res := check_access share
          if py_truthy_val res.1 then
            ({ st.1 with shares := rc_insert_entry st.1.shares share res.1 }, st.2 + 1)
          else st)
      (out0, 0)
    if r.2 = 0 then
      let errs := process_error_ledger "Could not find any (new) shares"
        ["shares"] "brute_force_shares" r.1.errors
      .ok ({ r.1 with errors := errs }, r.2)
    else .ok r

/-- First-of-two options: used to state lookup characterizations. -/
def opt_first {α : Type} (x y : Option α) : Option α :=
  match x with
  | some v => some v
  | none => y

/-! ## Lemmas about the dictionary model -/

theorem alookup_ainsert_self {α : Type} (k : String) (v : α) (d : List (String × α)) :
    alookup k (ainsert k v d) = some v := by
  induction d with
  | nil => simp [ainsert, alookup]
  | cons hd tl ih =>
    obtain ⟨k', v'⟩ := hd
    by_cases h : k = k' <;> simp [ainsert, alookup, h, ih]

theorem alookup_ainsert_ne {α : Type} {k k' : String} (v : α) (d : List (String × α))
    (h : k ≠ k') : alookup k (ainsert k' v d) = alookup k d := by
  induction d with
  | nil => simp [ainsert, alookup, h]
  | cons hd tl ih =>
    obtain ⟨k₁, v₁⟩ := hd
    by_cases h1 : k' = k₁
    · subst h1
      simp [ainsert, alookup, h]
    · by_cases h2 : k = k₁ <;> simp [ainsert, alookup, h1, h2, ih]

theorem alookup_eq_none_of_not_mem {α : Type} {k : String} {d : List (String × α)}
    (h : k ∉ d.map Prod.fst) : alookup k d = none := by
  induction d with
  | nil => simp [alookup]
  | cons hd tl ih =>
    obtain ⟨k₁, v₁⟩ := hd
    simp only [List.map_cons, List.mem_cons] at h
    push_neg at h
    simp [alookup, h.1, ih h.2]

theorem not_mem_of_alookup_eq_none {α : Type} {k : String} {d : List (String × α)}
    (h : alookup k d = none) : k ∉ d.map Prod.fst := by
  induction d with
  | nil => simp
  | cons hd tl ih =>
    obtain ⟨k₁, v₁⟩ := hd
    simp only [alookup] at h
    by_cases h1 : k = k₁
    · simp [h1] at h
    · simp only [if_neg h1] at h
      simp [h1, ih h]

theorem ainsert_of_alookup_none {α : Type} {k : String} (v : α) {d : List (String × α)}
    (h : alookup k d = none) : ainsert k v d = d ++ [(k, v)] := by
  induction d with
  | nil => simp [ainsert]
  | cons hd tl ih =>
    obtain ⟨k₁, v₁⟩ := hd
    simp only [alookup] at h
    by_cases h1 : k = k₁
    · simp [h1] at h
    · simp only [if_neg h1] at h
      simp [ainsert, h1, ih h]

theorem ainsert_keys {α : Type} (k : String) (v : α) (d : List (String × α)) :
    (ainsert k v d).map Prod.fst =
      if (alookup k d).isSome then d.map Prod.fst else d.map Prod.fst ++ [k] := by
  induction d with
  | nil => simp [ainsert, alookup]
  | cons hd tl ih =>
    obtain ⟨k₁, v₁⟩ := hd
    by_cases h1 : k = k₁
    · simp [ainsert, alookup, h1]
    · simp only [ainsert, if_neg h1, List.map_cons, alookup, ih]
      by_cases h2 : (alookup k tl).isSome <;> simp [h1, h2]

theorem ainsert_keys_nodup {α : Type} {k : String} (v : α) {d : List (String × α)}
    (hd : (d.map Prod.fst).Nodup) (hk : alookup k d = none) :
    ((ainsert k v d).map Prod.fst).Nodup := by
  rw [ainsert_keys, hk]
  simpa using List.Nodup.append hd (List.nodup_singleton k)
    (by simpa [List.disjoint_singleton] using not_mem_of_alookup_eq_none hk)

theorem alookup_append {α : Type} (k : String) (A B : List (String × α)) :
    alookup k (A ++ B) = opt_first (alookup k A) (alookup k B) := by
  induction A with
  | nil => simp [alookup, opt_first]
  | cons hd tl ih =>
    obtain ⟨k₁, v₁⟩ := hd
    by_cases h : k = k₁ <;> simp [alookup, opt_first, h, ih]

theorem alookup_aerase_ne {α : Type} {k k' : String} (d : List (String × α))
    (h : k ≠ k') : alookup k (aerase k' d) = alookup k d := by
  induction d with
  | nil => simp [aerase, alookup]
  | cons hd tl ih =>
    obtain ⟨k₁, v₁⟩ := hd
    by_cases h1 : k₁ = k'
    · subst h1
      simp [aerase, alookup, h, ih]
    · by_cases h2 : k = k₁ <;> simp [aerase, alookup, h1, h2, ih]

theorem alookup_aupdate {α : Type} (a b : List (String × α)) (k : String)
    (hb : (b.map Prod.fst).Nodup) :
    alookup k (aupdate a b) = opt_first (alookup k b) (alookup k a) := by
  induction b generalizing a with
  | nil => simp [aupdate, alookup, opt_first]
  | cons hd tl ih =>
    obtain ⟨k₁, v₁⟩ := hd
    simp only [List.map_cons, List.nodup_cons] at hb
    have step : aupdate a ((k₁, v₁) :: tl) = aupdate (ainsert k₁ v₁ a) tl := by
      simp [aupdate]
    rw [step, ih _ hb.2]
    by_cases hk : k = k₁
    · subst hk
      have htl : alookup k tl = none := alookup_eq_none_of_not_mem hb.1
      simp [alookup, opt_first, htl, alookup_ainsert_self]
    · cases htl : alookup k tl <;>
        simp [alookup, opt_first, hk, htl, alookup_ainsert_ne _ _ hk]

/-! ## Target theorems -/

theorem update_workgroup_of_flag {t : Target} (h : t.workgroup_from_long_domain = true)
    (w : String) (ld : Bool) : update_workgroup t w ld = t := by
  simp [update_workgroup, h]

theorem apply_workgroup_updates_of_flag {t : Target} (h : t.workgroup_from_long_domain = true)
    (calls : List (String × Bool)) : apply_workgroup_updates t calls = t := by
  induction calls with
  | nil => rfl
  | cons c cs ih =>
    simp [apply_workgroup_updates] at ih ⊢
    rw [update_workgroup_of_flag h, ih]

/-- C4: once `Target`'s workgroup has been set from a long (fully qualified)
domain name (`long_domain = true`), the `workgroup_from_long_domain` flag is
latched and every subsequent `update_workgroup` call — with any arguments —
leaves the Target unchanged; a call supplying a short/NetBIOS-style name
(`long_domain = false`) changes the workgroup exactly when no long-domain
assignment has happened before. -/
theorem c4_workgroup_precedence (t : Target) (w : String) (ld : Bool)
    (calls : List (String × Bool)) :
    (t.workgroup_from_long_domain = true → update_workgroup t w ld = t)
  ∧ (t.workgroup_from_long_domain = false →
      apply_workgroup_updates (update_workgroup t w true) calls = update_workgroup t w true)
  ∧ (t.workgroup_from_long_domain = false → (update_workgroup t w false).workgroup = w) := by
  refine ⟨fun h => update_workgroup_of_flag h w ld, fun h => ?_, fun h => ?_⟩
  · have hflag : (update_workgroup t w true).workgroup_from_long_domain = true := by
      simp [update_workgroup, h]
    exact apply_workgroup_updates_of_flag hflag calls
  · simp [update_workgroup, h]

theorem c4_workgroup_precedence_witness :
    apply_workgroup_updates
        (update_workgroup ⟨"host", "WORKGROUP", false⟩ "corp.example.com" true)
        [("SHORTNAME", false)]
      = update_workgroup ⟨"host", "WORKGROUP", false⟩ "corp.example.com" true :=
  (c4_workgroup_precedence ⟨"host", "WORKGROUP", false⟩ "corp.example.com" false
    [("SHORTNAME", false)]).2.1 rfl

/-- C10: a long-domain assignment stores in `Target.workgroup` only the
substring of the fully qualified name before the first dot
(`workgroup.split('.')[0]`), never the full long name, and latches the
long-domain flag; `main` performs exactly this `update_workgroup(..., True)`
call when no workgroup is known and a truthy `long_domain` result exists
(the full name itself stays untouched in the LDAP module's `long_domain`
output field, which this Target mutation does not write to). -/
theorem c10_long_domain_workgroup_short_form (t : Target) (d : String)
    (h : t.workgroup_from_long_domain = false) (hw : t.workgroup = "") (hd : d ≠ "") :
    (update_workgroup t d true).workgroup = (py_split_dot d).headD ""
  ∧ (update_workgroup t d true).workgroup_from_long_domain = true
  ∧ main_ldap_workgroup_step t (some d) = update_workgroup t d true := by
  refine ⟨by simp [update_workgroup, h], by simp [update_workgroup, h], ?_⟩
  simp [main_ldap_workgroup_step, hw, py_truthy_str, py_truthy_opt_bool, hd]

theorem c10_long_domain_workgroup_short_form_witness :
    (update_workgroup ⟨"host", "", false⟩ "corp.example.com" true).workgroup = "corp" := by
  have h := (c10_long_domain_workgroup_short_form ⟨"host", "", false⟩ "corp.example.com"
    rfl rfl (by decide)).1
  rw [h]
  decide

/-! ## C1: the user-list merge -/

/-- C1 counterexample: the claim "for any RID present in both results the
merged user map's value equals the second call's (`enumdomusers`) value" is
false on the code.  `{**users_edu_output, **users_qdi_output}` gives
precedence to `users_qdi_output`, the FIRST call: for RID 1001, present in
both test vectors, the merged value is the `querydispinfo` record (username
"alice"), not the `enumdomusers` record (username "bob"). -/
theorem c1_users_merge_counterexample :
    merge_users (some qdi_example) (some edu_example) = some (aupdate edu_example qdi_example)
  ∧ (alookup "1001" qdi_example).isSome
  ∧ (alookup "1001" edu_example).isSome
  ∧ alookup "1001" (aupdate edu_example qdi_example) ≠ alookup "1001" edu_example := by
  refine ⟨rfl, by decide, by decide, by decide⟩

/-- C1 (amended): when both listing calls succeed, the merged user map is a
LEFT-biased union keyed by RID — for any RID present in both results the
merged value equals the FIRST call's (`querydispinfo`) value, and any RID
present in only one result is preserved unchanged. -/
theorem c1_users_merge_first_call_biased (qdi edu : List (String × UserEntry)) (k : String)
    (hq : (qdi.map Prod.fst).Nodup) :
    ∃ m, merge_users (some qdi) (some edu) = some m ∧
      alookup k m = opt_first (alookup k qdi) (alookup k edu) := by
  exact ⟨aupdate edu qdi, rfl, alookup_aupdate edu qdi k hq⟩

theorem c1_users_merge_first_call_biased_witness :
    ∃ m, merge_users (some qdi_example) (some edu_example) = some m ∧
      alookup "1001" m = opt_first (alookup "1001" qdi_example) (alookup "1001" edu_example) :=
  c1_users_merge_first_call_biased qdi_example edu_example "1001" (by decide)

/-! ## C8: policy duration decoding -/

/-- C8: the duration decoder maps the 32-bit pair (low = 0, high pattern
`0x80000000`, i.e. signed `-2^31`) to "not set" and (low = 0, high = 0) to
"none" (both before the lockout split, so for either mode); for every other
non-lockout pair with `low ≠ 0` it sign-normalizes by taking the absolute
value of `high + 1` before converting the combined 64-bit tick value
`low + |high + 1| * 16^8` to a duration string. -/
theorem c8_policy_duration_decoding (low : Nat) (high : Int) (lockout : Bool)
    (hlow : low ≠ 0) :
    policy_to_human 0 (to_signed_32 0x80000000) lockout = "not set"
  ∧ policy_to_human 0 (to_signed_32 0) lockout = "none"
  ∧ policy_to_human low high false = render_ticks (low + (high + 1).natAbs * 16 ^ 8) := by
  refine ⟨?_, ?_, ?_⟩
  · have h : to_signed_32 0x80000000 = -(2 ^ 31) := by norm_num [to_signed_32]
    simp [policy_to_human, h]
  · have h : to_signed_32 0 = 0 := by norm_num [to_signed_32]
    rw [h]
    have hne : ¬((0 : Nat) = 0 ∧ (0 : Int) = -(2 ^ 31)) := by norm_num
    simp [policy_to_human, hne]
  · simp [policy_to_human, hlow]

theorem c8_policy_duration_decoding_witness :
    policy_to_human 1 (-1) false = render_ticks (1 + ((-1 : Int) + 1).natAbs * 16 ^ 8) :=
  (c8_policy_duration_decoding 1 (-1) false (by decide)).2.2

/-! ## C5, C6, C7: the three truthy-string-literal defects -/

theorem enum_sids_loop_body_id (sids : List String) (s : String) :
    enum_sids_loop_body sids s = sids := by
  have h : py_truthy_str "NT_STATUS_ACCESS_DENIED" = true := by decide
  simp [enum_sids_loop_body, h]

/-- C5: the claim fails on the code — the per-username SID-discovery loop of
`RidCycling.enum_sids` never extracts any SID, whatever the lookup outputs,
because its skip condition tests the truthiness of the string literal
`"NT_STATUS_ACCESS_DENIED"` (always true) instead of substring containment,
so every iteration `continue`s.  The second conjunct shows the claim's
antecedent is satisfiable: a lookup output with no status token from which
`search_sid` does extract the SID `S-1-5-21-1-2-3` — yet the loop returns
the empty list on exactly that input (third conjunct). -/
theorem c5_sid_discovery_loop_dead (lookup_outputs : List String) :
    enum_sids_user_loop lookup_outputs = []
  ∧ search_sid "S-1-5-21-".toList "SID S-1-5-21-1-2-3-500 (1)".toList
      = some "S-1-5-21-1-2-3".toList
  ∧ enum_sids_user_loop ["SID S-1-5-21-1-2-3-500 (1)"] = [] := by
  refine ⟨?_, by decide, ?_⟩
  · have h : ∀ (l : List String) (acc : List String),
        l.foldl enum_sids_loop_body acc = acc := by
      intro l
      induction l with
      | nil => intro acc; rfl
      | cons x xs ih =>
        intro acc
        simp [List.foldl_cons, enum_sids_loop_body_id, ih]
    exact h lookup_outputs []
  · simp [enum_sids_user_loop, enum_sids_loop_body_id]

/-- C6: the claim fails on the code — the RPC/LSA membership classifier
returns `"workgroup"` for EVERY lsaquery output, because its first branch
tests the truthiness of the string literal `"Domain Sid: S-0-0"` (always
true) instead of substring containment; in particular it returns
`"workgroup"` for an output carrying a domain SID that matches the standard
security-identifier authority pattern (second and third conjuncts), where
the claim requires `"domain"`. -/
theorem c6_lsa_member_of_always_workgroup (s : String) :
    (check_is_part_of_workgroup_or_domain s).1 = some "workgroup"
  ∧ (check_is_part_of_workgroup_or_domain "Domain Sid: S-1-5-21-1-2-3").1 = some "workgroup"
  ∧ re_search_domain_sid "Domain Sid: S-1-5-21-1-2-3".toList = true := by
  have h : py_truthy_str "Domain Sid: S-0-0" = true := by decide
  exact ⟨by simp [check_is_part_of_workgroup_or_domain, h],
         by simp [check_is_part_of_workgroup_or_domain, h],
         by decide⟩

/-- C7: the claim fails on the code — the LDAP parent/child classification is
constant.  `check_parent_dc` returns `True` for every naming-context list
(its condition tests the truthiness of the string literal
`"DC=DomainDnsZones"`), and `EnumLdapDomainInfo.run` assigns
`is_parent_dc = True, is_child_dc = False` in BOTH branches of its `if`, so
even a naming-context list with no forest/domain DNS zone entry (third
conjunct) is classified as a parent/root DC, never as a child DC. -/
theorem c7_ldap_dc_classification_constant (namingcontexts : List String) :
    (check_parent_dc namingcontexts).1 = true
  ∧ ldap_run_dc_flags namingcontexts = (some true, some false)
  ∧ ldap_run_dc_flags ["DC=child,DC=example,DC=com"] = (some true, some false) := by
  have h : py_truthy_str "DC=DomainDnsZones" = true := by decide
  refine ⟨by simp [check_parent_dc, h], ?_, ?_⟩ <;>
    simp [ldap_run_dc_flags, check_parent_dc, h]

/-! ## Lemmas about `Output.update` and the session module -/

theorem py_truthy_opt_bool_eq_true (x : Option Bool) :
    py_truthy_opt_bool x = true ↔ x = some true := by
  cases x with
  | none => simp [py_truthy_opt_bool]
  | some b => cases b <;> simp [py_truthy_opt_bool]

theorem alookup_move_errors {k : String} (t : List (String × PyVal)) (hk : k ≠ "errors") :
    alookup k (move_errors_to_end t) = alookup k t := by
  unfold move_errors_to_end
  split
  · rename_i v h
    rw [alookup_append, alookup_aerase_ne t hk]
    cases h2 : alookup k t <;> simp [opt_first, alookup, hk]
  · rfl

theorem alookup_output_update_ne (out_dict content : List (String × PyVal)) (k : String)
    (hk : k ≠ "errors") (hc : (content.map Prod.fst).Nodup) :
    alookup k (output_update out_dict content)
      = opt_first (alookup k content) (alookup k out_dict) := by
  unfold output_update
  rw [alookup_move_errors _ hk]
  unfold output_update_err
  split
  · rw [alookup_ainsert_ne _ _ hk]
    unfold output_update_core
    rw [alookup_ainsert_ne _ _ hk, alookup_aupdate _ _ _ hc]
  · unfold output_update_core
    rw [alookup_ainsert_ne _ _ hk, alookup_aupdate _ _ _ hc]

theorem sessions_tree_keys_nodup (o : SessionsOutput) :
    ((sessions_to_tree o).map Prod.fst).Nodup := by
  by_cases h : o.errors.isEmpty <;> simp [sessions_to_tree, h]

theorem alookup_sessions_tree_sp (o : SessionsOutput) :
    alookup "sessions_possible" (sessions_to_tree o) = some (.vBool o.sessions_possible) := by
  simp [sessions_to_tree, alookup]

theorem enum_sessions_run_flags (l1 l2 nc : CheckResult) (hu : Bool) (uc rc : CheckResult) :
    (enum_sessions_run l1 l2 nc hu uc rc).null_session_possible = py_truthy_opt_bool nc.1
  ∧ (enum_sessions_run l1 l2 nc hu uc rc).user_session_possible = (hu && py_truthy_opt_bool uc.1)
  ∧ (enum_sessions_run l1 l2 nc hu uc rc).random_user_session_possible = py_truthy_opt_bool rc.1
  ∧ (enum_sessions_run l1 l2 nc hu uc rc).sessions_possible =
      (py_truthy_opt_bool nc.1 || (hu && py_truthy_opt_bool uc.1) || py_truthy_opt_bool rc.1) := by
  refine ⟨?_, ?_, ?_, ?_⟩ <;>
  · cases h1 : l1.1 <;> cases h2 : l2.1 <;>
      cases hn : py_truthy_opt_bool nc.1 <;> cases hu <;>
      cases hua : py_truthy_opt_bool uc.1 <;> cases hr : py_truthy_opt_bool rc.1 <;>
      simp [enum_sessions_run, sessions_legacy_stage, sessions_null_stage, sessions_user_stage,
            sessions_random_stage, sessions_finalize, sessions_initial, h1, h2, hn, hua, hr]

/-! ## C3: the session gate -/

/-- C3: `sessions_possible` is true iff at least one of the three session
variants succeeded (retval `True`; the supplied-credential variant is only
attempted when a username was given); and when it is false, `main` aborts
with exit code 1 right after merging the session module's output — the
resulting tree is exactly `output_update tree0 (sessions_to_tree ...)`,
independent of whatever the subsequent enumerators would have produced, so
no subsequent module output is present in it. -/
theorem c3_session_gate (l1 l2 nc : CheckResult) (hu : Bool) (uc rc : CheckResult)
    (tree0 : List (String × PyVal)) (later : List (List (String × PyVal))) :
    ((enum_sessions_run l1 l2 nc hu uc rc).sessions_possible = true ↔
      (nc.1 = some true ∨ (hu = true ∧ uc.1 = some true) ∨ rc.1 = some true))
  ∧ ((enum_sessions_run l1 l2 nc hu uc rc).sessions_possible = false →
      main_session_gate tree0 (enum_sessions_run l1 l2 nc hu uc rc) later
        = RunOutcome.aborted 1
            (output_update tree0 (sessions_to_tree (enum_sessions_run l1 l2 nc hu uc rc)))) := by
  constructor
  · rw [(enum_sessions_run_flags l1 l2 nc hu uc rc).2.2.2]
    simp [py_truthy_opt_bool_eq_true, or_assoc]
  · intro hsp
    have hlk : alookup "sessions_possible"
        (output_update tree0 (sessions_to_tree (enum_sessions_run l1 l2 nc hu uc rc)))
          = some (.vBool false) := by
      rw [alookup_output_update_ne tree0 _ _ (by decide) (sessions_tree_keys_nodup _),
          alookup_sessions_tree_sp, hsp]
      rfl
    simp [main_session_gate, hlk, py_truthy_val]

theorem c3_session_gate_witness :
    main_session_gate [("errors", PyVal.vDict [])]
        (enum_sessions_run (some false, "") (some false, "") (none, "timed out") false
          (none, "") (some false, "denied"))
        [[("users", PyVal.vNull)]]
      = RunOutcome.aborted 1
          (output_update [("errors", PyVal.vDict [])]
            (sessions_to_tree (enum_sessions_run (some false, "") (some false, "") (none, "timed out")
              false (none, "") (some false, "denied")))) :=
  (c3_session_gate (some false, "") (some false, "") (none, "timed out") false
    (none, "") (some false, "denied") [("errors", PyVal.vDict [])]
    [[("users", PyVal.vNull)]]).2 (by decide)

/-! ## C9: the share brute-force wordlist failure -/

/-- C9: the claim fails on the code — when the wordlist file cannot be
opened or read, `BruteForceShares.run` does NOT record a per-field `shares`
error and continue: its `except` handler evaluates
`f"Failed to open {brute_params.shares_file}"`, but the name `brute_params`
is not defined (the attribute is `self.brute_params`), so the handler raises
`NameError`, which propagates uncaught and crashes the run before anything
is written to the ledger. -/
theorem c9_wordlist_failure_raises (check_access : String → PyVal × String)
    (out0 : SharesOutput) :
    brute_force_shares_run none check_access out0
      = .error "NameError: name brute_params is not defined" := rfl

/-! ## Lemmas about the RID-cycling fold -/

theorem rc_known_eq (m : PyVal) (rid : String) :
    rc_known m rid = (rc_lookup m rid).isSome := by
  cases m <;> simp [rc_known, rc_lookup]

theorem rc_known_false_lookup (m : PyVal) (r : String) (h : rc_known m r = false) :
    rc_lookup m r = none := by
  rw [rc_known_eq] at h
  cases hl : rc_lookup m r
  · rfl
  · rw [hl] at h; simp at h

theorem rc_lookup_insert_self (m : PyVal) (r : String) (x : PyVal) :
    rc_lookup (rc_insert_entry m r x) r = some x := by
  cases m <;> simp [rc_insert_entry, rc_lookup, alookup_ainsert_self, alookup]

theorem rc_lookup_insert_ne (m : PyVal) (r : String) (x : PyVal) {rid : String}
    (h : rid ≠ r) : rc_lookup (rc_insert_entry m r x) rid = rc_lookup m rid := by
  cases m <;> simp [rc_insert_entry, rc_lookup, alookup_ainsert_ne _ _ h, alookup, h]

theorem rc_nodup_insert (m : PyVal) (r : String) (x : PyVal) (h : rc_nodup_keys m) :
    rc_nodup_keys (rc_insert_entry m r x) := by
  cases m with
  | vDict d =>
    simp only [rc_insert_entry, rc_nodup_keys] at h ⊢
    cases hl : alookup r d with
    | some v => rw [ainsert_keys]; simp [hl, h]
    | none => exact ainsert_keys_nodup x h hl
  | vNull => simp [rc_insert_entry, rc_nodup_keys]
  | vBool b => simp [rc_insert_entry, rc_nodup_keys]
  | vStr s => simp [rc_insert_entry, rc_nodup_keys]
  | vList l => simp [rc_insert_entry, rc_nodup_keys]

theorem rc_step_preserves (detailed : Bool) (uD gD : DetOracle) (st : RcOutput × RcCounts)
    (hit : RcHit) (rid : String) (e : PyVal) :
    (rc_lookup st.1.users rid = some e →
      rc_lookup (rc_step detailed uD gD st hit).1.users rid = some e)
  ∧ (rc_lookup st.1.groups rid = some e →
      rc_lookup (rc_step detailed uD gD st hit).1.groups rid = some e)
  ∧ (rc_lookup st.1.machines rid = some e →
      rc_lookup (rc_step detailed uD gD st hit).1.machines rid = some e) := by
  cases hit with
  | hitDomainSid s => simp [rc_step]
  | hitUser r u =>
    by_cases hk : rc_known st.1.users r
    · simp [rc_step, hk]
    · refine ⟨fun hl => ?_, fun hl => ?_, fun hl => ?_⟩
      · have hner : rid ≠ r := by
          intro he
          rw [he, rc_known_false_lookup _ _ (by simpa using hk)] at hl
          exact Option.noConfusion hl
        by_cases hd : detailed <;>
          simp [rc_step, hk, hd, apply_ite,
                rc_lookup_insert_ne _ _ _ hner, hl]
      · by_cases hd : detailed <;> simp [rc_step, hk, hd, apply_ite, hl]
      · by_cases hd : detailed <;> simp [rc_step, hk, hd, apply_ite, hl]
  | hitGroup r g gt =>
    by_cases hk : rc_known st.1.groups r
    · simp [rc_step, hk]
    · refine ⟨fun hl => ?_, fun hl => ?_, fun hl => ?_⟩
      · by_cases hd : detailed <;> simp [rc_step, hk, hd, apply_ite, hl]
      · have hner : rid ≠ r := by
          intro he
          rw [he, rc_known_false_lookup _ _ (by simpa using hk)] at hl
          exact Option.noConfusion hl
        by_cases hd : detailed <;>
          simp [rc_step, hk, hd, apply_ite,
                rc_lookup_insert_ne _ _ _ hner, hl]
      · by_cases hd : detailed <;> simp [rc_step, hk, hd, apply_ite, hl]
  | hitMachine r mn =>
    by_cases hk : rc_known st.1.machines r
    · simp [rc_step, hk]
    · refine ⟨fun hl => ?_, fun hl => ?_, fun hl => ?_⟩
      · simp [rc_step, hk, hl]
      · simp [rc_step, hk, hl]
      · have hner : rid ≠ r := by
          intro he
          rw [he, rc_known_false_lookup _ _ (by simpa using hk)] at hl
          exact Option.noConfusion hl
        simp [rc_step, hk, rc_lookup_insert_ne _ _ _ hner, hl]

theorem rc_fold_preserves (detailed : Bool) (uD gD : DetOracle) (hits : List RcHit)
    (st : RcOutput × RcCounts) (rid : String) (e : PyVal) :
    (rc_lookup st.1.users rid = some e →
      rc_lookup ((hits.foldl (rc_step detailed uD gD) st).1.users) rid = some e)
  ∧ (rc_lookup st.1.groups rid = some e →
      rc_lookup ((hits.foldl (rc_step detailed uD gD) st).1.groups) rid = some e)
  ∧ (rc_lookup st.1.machines rid = some e →
      rc_lookup ((hits.foldl (rc_step detailed uD gD) st).1.machines) rid = some e) := by
  induction hits generalizing st with
  | nil => exact ⟨id, id, id⟩
  | cons hd tl ih =>
    have hstep := rc_step_preserves detailed uD gD st hd rid e
    have hih := ih (rc_step detailed uD gD st hd)
    exact ⟨fun hl => hih.1 (hstep.1 hl), fun hl => hih.2.1 (hstep.2.1 hl),
           fun hl => hih.2.2 (hstep.2.2 hl)⟩

theorem rc_step_nodup (detailed : Bool) (uD gD : DetOracle) (st : RcOutput × RcCounts)
    (hit : RcHit) (hu : rc_nodup_keys st.1.users) (hg : rc_nodup_keys st.1.groups)
    (hm : rc_nodup_keys st.1.machines) :
    rc_nodup_keys (rc_step detailed uD gD st hit).1.users
  ∧ rc_nodup_keys (rc_step detailed uD gD st hit).1.groups
  ∧ rc_nodup_keys (rc_step detailed uD gD st hit).1.machines := by
  cases hit with
  | hitDomainSid s => exact ⟨by simpa [rc_step] using hu, by simpa [rc_step] using hg,
                             by simpa [rc_step] using hm⟩
  | hitUser r u =>
    by_cases hk : rc_known st.1.users r
    · refine ⟨?_, ?_, ?_⟩ <;> simp [rc_step, hk, hu, hg, hm]
    · refine ⟨?_, ?_, ?_⟩
      · by_cases hd : detailed
        · simp [rc_step, hk, hd, apply_ite]
          exact rc_nodup_insert _ _ _ (rc_nodup_insert _ _ _ hu)
        · simp [rc_step, hk, hd]
          exact rc_nodup_insert _ _ _ hu
      · by_cases hd : detailed <;> simp [rc_step, hk, hd, apply_ite, hg]
      · by_cases hd : detailed <;> simp [rc_step, hk, hd, apply_ite, hm]
  | hitGroup r g gt =>
    by_cases hk : rc_known st.1.groups r
    · refine ⟨?_, ?_, ?_⟩ <;> simp [rc_step, hk, hu, hg, hm]
    · refine ⟨?_, ?_, ?_⟩
      · by_cases hd : detailed <;> simp [rc_step, hk, hd, apply_ite, hu]
      · by_cases hd : detailed
        · simp [rc_step, hk, hd, apply_ite]
          exact rc_nodup_insert _ _ _ (rc_nodup_insert _ _ _ hg)
        · simp [rc_step, hk, hd]
          exact rc_nodup_insert _ _ _ hg
      · by_cases hd : detailed <;> simp [rc_step, hk, hd, apply_ite, hm]
  | hitMachine r mn =>
    by_cases hk : rc_known st.1.machines r
    · refine ⟨?_, ?_, ?_⟩ <;> simp [rc_step, hk, hu, hg, hm]
    · refine ⟨?_, ?_, ?_⟩
      · simp [rc_step, hk, hu]
      · simp [rc_step, hk, hg]
      · simp only [rc_step, hk]
        simp
        exact rc_nodup_insert _ _ _ hm

theorem rc_fold_nodup (detailed : Bool) (uD gD : DetOracle) (hits : List RcHit)
    (st : RcOutput × RcCounts) (hu : rc_nodup_keys st.1.users)
    (hg : rc_nodup_keys st.1.groups) (hm : rc_nodup_keys st.1.machines) :
    rc_nodup_keys ((hits.foldl (rc_step detailed uD gD) st).1.users)
  ∧ rc_nodup_keys ((hits.foldl (rc_step detailed uD gD) st).1.groups)
  ∧ rc_nodup_keys ((hits.foldl (rc_step detailed uD gD) st).1.machines) := by
  induction hits generalizing st with
  | nil => exact ⟨hu, hg, hm⟩
  | cons hd tl ih =>
    have hstep := rc_step_nodup detailed uD gD st hd hu hg hm
    exact ih (rc_step detailed uD gD st hd) hstep.1 hstep.2.1 hstep.2.2

theorem hit_rid_known_of_fields_eq {h : RcHit} {o o' : RcOutput}
    (hus : o'.users = o.users) (hgs : o'.groups = o.groups) (hms : o'.machines = o.machines)
    (hk : hit_rid_known h o) : hit_rid_known h o' := by
  cases h <;> simp_all [hit_rid_known]

theorem rc_step_self_known (detailed : Bool) (uD gD : DetOracle) (st : RcOutput × RcCounts)
    (hit : RcHit) : hit_rid_known hit (rc_step detailed uD gD st hit).1 := by
  cases hit with
  | hitDomainSid s => trivial
  | hitUser r u =>
    by_cases hk : rc_known st.1.users r
    · simp only [rc_step, hk, if_true]
      show (rc_lookup st.1.users r).isSome = true
      rw [← rc_known_eq]; exact hk
    · by_cases hd : detailed <;>
        simp [rc_step, hk, hd, hit_rid_known, apply_ite, rc_lookup_insert_self]
  | hitGroup r g gt =>
    by_cases hk : rc_known st.1.groups r
    · simp only [rc_step, hk, if_true]
      show (rc_lookup st.1.groups r).isSome = true
      rw [← rc_known_eq]; exact hk
    · by_cases hd : detailed <;>
        simp [rc_step, hk, hd, hit_rid_known, apply_ite, rc_lookup_insert_self]
  | hitMachine r mn =>
    by_cases hk : rc_known st.1.machines r
    · simp only [rc_step, hk, if_true]
      show (rc_lookup st.1.machines r).isSome = true
      rw [← rc_known_eq]; exact hk
    · simp [rc_step, hk, hit_rid_known, rc_lookup_insert_self]

theorem rc_step_known_mono (detailed : Bool) (uD gD : DetOracle) (st : RcOutput × RcCounts)
    (hit h' : RcHit) (hk : hit_rid_known h' st.1) :
    hit_rid_known h' (rc_step detailed uD gD st hit).1 := by
  cases h' with
  | hitDomainSid s => trivial
  | hitUser r u =>
    simp only [hit_rid_known, Option.isSome_iff_exists] at hk ⊢
    obtain ⟨e, he⟩ := hk
    exact ⟨e, (rc_step_preserves detailed uD gD st hit r e).1 he⟩
  | hitGroup r g gt =>
    simp only [hit_rid_known, Option.isSome_iff_exists] at hk ⊢
    obtain ⟨e, he⟩ := hk
    exact ⟨e, (rc_step_preserves detailed uD gD st hit r e).2.1 he⟩
  | hitMachine r mn =>
    simp only [hit_rid_known, Option.isSome_iff_exists] at hk ⊢
    obtain ⟨e, he⟩ := hk
    exact ⟨e, (rc_step_preserves detailed uD gD st hit r e).2.2 he⟩

theorem rc_fold_known_mono (detailed : Bool) (uD gD : DetOracle) (hits : List RcHit)
    (st : RcOutput × RcCounts) (h' : RcHit) (hk : hit_rid_known h' st.1) :
    hit_rid_known h' ((hits.foldl (rc_step detailed uD gD) st).1) := by
  induction hits generalizing st with
  | nil => exact hk
  | cons hd tl ih => exact ih _ (rc_step_known_mono detailed uD gD st hd h' hk)

theorem rc_fold_all_known (detailed : Bool) (uD gD : DetOracle) (hits : List RcHit)
    (st : RcOutput × RcCounts) :
    ∀ h ∈ hits, hit_rid_known h ((hits.foldl (rc_step detailed uD gD) st).1) := by
  induction hits generalizing st with
  | nil => intro h hm; cases hm
  | cons hd tl ih =>
    intro h hm
    cases hm with
    | head =>
      exact rc_fold_known_mono detailed uD gD tl _ hd
        (rc_step_self_known detailed uD gD st hd)
    | tail _ hm' => exact ih _ h hm'

theorem rc_fold_skip (detailed : Bool) (uD gD : DetOracle) (hits : List RcHit) :
    ∀ (out : RcOutput) (cnt : RcCounts), (∀ h ∈ hits, hit_rid_known h out) →
    ((hits.foldl (rc_step detailed uD gD) (out, cnt)).1.users = out.users
  ∧ (hits.foldl (rc_step detailed uD gD) (out, cnt)).1.groups = out.groups
  ∧ (hits.foldl (rc_step detailed uD gD) (out, cnt)).1.machines = out.machines
  ∧ (hits.foldl (rc_step detailed uD gD) (out, cnt)).2 = cnt) := by
  induction hits with
  | nil => intro out cnt _; exact ⟨rfl, rfl, rfl, rfl⟩
  | cons hd tl ih =>
    intro out cnt hall
    have hhd := hall hd (List.mem_cons_self hd tl)
    have hrest : ∀ h ∈ tl, hit_rid_known h out := fun h hm => hall h (List.mem_cons_of_mem _ hm)
    cases hd with
    | hitDomainSid s =>
      have hrest' : ∀ h ∈ tl, hit_rid_known h ({ out with domain_sid := .vStr s }) :=
        fun h hm =>
          @hit_rid_known_of_fields_eq h out { out with domain_sid := .vStr s }
            rfl rfl rfl (hrest h hm)
      have := ih { out with domain_sid := .vStr s } cnt hrest'
      simpa [rc_step] using this
    | hitUser r u =>
      have hk : rc_known out.users r = true := by
        rw [rc_known_eq]; exact hhd
      have := ih out cnt hrest
      simpa [rc_step, hk] using this
    | hitGroup r g gt =>
      have hk : rc_known out.groups r = true := by
        rw [rc_known_eq]; exact hhd
      have := ih out cnt hrest
      simpa [rc_step, hk] using this
    | hitMachine r mn =>
      have hk : rc_known out.machines r = true := by
        rw [rc_known_eq]; exact hhd
      have := ih out cnt hrest
      simpa [rc_step, hk] using this

theorem rid_cycling_run_fields (detailed : Bool) (uD gD : DetOracle) (seed : RcOutput)
    (hits : List RcHit) :
    (rid_cycling_run detailed uD gD seed hits).1.users
        = (hits.foldl (rc_step detailed uD gD) (seed, ⟨0, 0, 0⟩)).1.users
  ∧ (rid_cycling_run detailed uD gD seed hits).1.groups
        = (hits.foldl (rc_step detailed uD gD) (seed, ⟨0, 0, 0⟩)).1.groups
  ∧ (rid_cycling_run detailed uD gD seed hits).1.machines
        = (hits.foldl (rc_step detailed uD gD) (seed, ⟨0, 0, 0⟩)).1.machines
  ∧ (rid_cycling_run detailed uD gD seed hits).2
        = (hits.foldl (rc_step detailed uD gD) (seed, ⟨0, 0, 0⟩)).2 := by
  simp only [rid_cycling_run]
  split <;> simp

/-! ## C2: RID-cycling monotonicity and idempotence -/

/-- C2: every RID already present in the seeded users/groups/machines maps
keeps exactly its seeded entry through `RidCycling.run` (the loop skips RIDs
that are already known, so it never removes or replaces such an entry, and in
particular does not even add a `details` sub-entry to it); the run never
creates a duplicate RID key (key-nodup is preserved); and running the fold a
second time over the same classified hits, seeded with the first run's
output, finds zero new users, groups and machines and leaves all three maps
unchanged. -/
theorem c2_rid_cycling_monotone (detailed : Bool) (uD gD : DetOracle) (seed : RcOutput)
    (hits : List RcHit) (rid : String) (e : PyVal)
    (hu : rc_nodup_keys seed.users) (hg : rc_nodup_keys seed.groups)
    (hm : rc_nodup_keys seed.machines) :
    (rc_lookup seed.users rid = some e →
      rc_lookup (rid_cycling_run detailed uD gD seed hits).1.users rid = some e)
  ∧ (rc_lookup seed.groups rid = some e →
      rc_lookup (rid_cycling_run detailed uD gD seed hits).1.groups rid = some e)
  ∧ (rc_lookup seed.machines rid = some e →
      rc_lookup (rid_cycling_run detailed uD gD seed hits).1.machines rid = some e)
  ∧ rc_nodup_keys (rid_cycling_run detailed uD gD seed hits).1.users
  ∧ rc_nodup_keys (rid_cycling_run detailed uD gD seed hits).1.groups
  ∧ rc_nodup_keys (rid_cycling_run detailed uD gD seed hits).1.machines
  ∧ ((rid_cycling_run detailed uD gD (rid_cycling_run detailed uD gD seed hits).1 hits).2
        = ⟨0, 0, 0⟩
    ∧ (rid_cycling_run detailed uD gD (rid_cycling_run detailed uD gD seed hits).1 hits).1.users
        = (rid_cycling_run detailed uD gD seed hits).1.users
    ∧ (rid_cycling_run detailed uD gD (rid_cycling_run detailed uD gD seed hits).1 hits).1.groups
        = (rid_cycling_run detailed uD gD seed hits).1.groups
    ∧ (rid_cycling_run detailed uD gD (rid_cycling_run detailed uD gD seed hits).1 hits).1.machines
        = (rid_cycling_run detailed uD gD seed hits).1.machines) := by
  have hrf := rid_cycling_run_fields detailed uD gD seed hits
  have hpres := rc_fold_preserves detailed uD gD hits (seed, ⟨0, 0, 0⟩) rid e
  have hnd := rc_fold_nodup detailed uD gD hits (seed, ⟨0, 0, 0⟩) hu hg hm
  -- every hit's RID is present in the first run's output maps
  have hknown : ∀ h ∈ hits, hit_rid_known h (rid_cycling_run detailed uD gD seed hits).1 := by
    intro h hmem
    exact hit_rid_known_of_fields_eq hrf.1 hrf.2.1 hrf.2.2.1
      (rc_fold_all_known detailed uD gD hits (seed, ⟨0, 0, 0⟩) h hmem)
  have hskip := rc_fold_skip detailed uD gD hits (rid_cycling_run detailed uD gD seed hits).1
    ⟨0, 0, 0⟩ hknown
  have hrf2 := rid_cycling_run_fields detailed uD gD (rid_cycling_run detailed uD gD seed hits).1 hits
  refine ⟨fun hl => ?_, fun hl => ?_, fun hl => ?_, ?_, ?_, ?_, ?_, ?_, ?_, ?_⟩
  · rw [hrf.1]; exact hpres.1 hl
  · rw [hrf.2.1]; exact hpres.2.1 hl
  · rw [hrf.2.2.1]; exact hpres.2.2 hl
  · rw [hrf.1]; exact hnd.1
  · rw [hrf.2.1]; exact hnd.2.1
  · rw [hrf.2.2.1]; exact hnd.2.2
  · rw [hrf2.2.2.2, hskip.2.2.2]
  · rw [hrf2.1, hskip.1]
  · rw [hrf2.2.1, hskip.2.1]
  · rw [hrf2.2.2.1, hskip.2.2.1]

theorem c2_rid_cycling_monotone_witness :
    rc_lookup (rid_cycling_run false det_oracle_denied det_oracle_denied
        rc_seed_example rc_hits_example).1.users "500"
      = some (PyVal.vDict [("username", PyVal.vStr "Administrator")])
  ∧ (rid_cycling_run false det_oracle_denied det_oracle_denied
      (rid_cycling_run false det_oracle_denied det_oracle_denied
        rc_seed_example rc_hits_example).1 rc_hits_example).2 = ⟨0, 0, 0⟩ := by
  have h := c2_rid_cycling_monotone false det_oracle_denied det_oracle_denied
    rc_seed_example rc_hits_example "500"
    (PyVal.vDict [("username", PyVal.vStr "Administrator")])
    (by simp [rc_nodup_keys, rc_seed_example])
    (by simp [rc_nodup_keys, rc_seed_example])
    (by simp [rc_nodup_keys, rc_seed_example])
  exact ⟨h.1 (by rfl), h.2.2.2.2.2.2.1⟩

end Enum4linuxNg
